import Mathlib

/-!
Verification of the JIMM charm collection (canonical/jimm).

This file gives a shallow embedding of the reconciliation, configuration
aggregation, asset installation, readiness and status logic of the charm
scripts, and proves (or refutes) the specification's claims about them.

Conventions of the embedding:
* Python dictionaries holding string data are association lists
  `List (String × String)`; the dedicated operations `lookupKey`, `setKey`
  and `removeKey` mirror `d.get(k)`, `d[k] = v` and `del d[k]`.
* Optional / possibly-`None` Python values are `Option`.
* Code that raises is embedded with `Except`; a total Lean function models
  code that cannot raise.
* Side effects on files, the service supervisor and the workload container
  are explicit state records, with handlers returning the new state plus
  the process action performed.
-/

namespace Jimm

/-! ## Association-list primitives (Python dict operations) -/

/-- `d.get(k)` on a Python string dict: the first binding of `k`. -/
def lookupKey (d : List (String × String)) (k : String) : Option String :=
  match d with
  | [] => none
  | (k', v) :: rest => if k' = k then some v else lookupKey rest k

/-- `d[k] = v` on a Python dict: overwrite in place, else append. -/
def setKey (d : List (String × String)) (k : String) (v : String) :
    List (String × String) :=
  match d with
  | [] => [(k, v)]
  | (k', v') :: rest => if k' = k then (k, v) :: rest else (k', v') :: setKey rest k v

/-- `del d[k]` on a Python dict (keys are unique, so removing every
binding of `k` is exact). -/
def removeKey (d : List (String × String)) (k : String) : List (String × String) :=
  match d with
  | [] => []
  | (k', v') :: rest => if k' = k then removeKey rest k else (k', v') :: removeKey rest k

theorem lookupKey_setKey_self (d : List (String × String)) (k v : String) :
    lookupKey (setKey d k v) k = some v := by
  induction d with
  | nil => simp [setKey, lookupKey]
  | cons hd tl ih =>
    by_cases h : hd.1 = k
    · simp [setKey, lookupKey, h]
    · simp [setKey, lookupKey, h, ih]

theorem lookupKey_setKey_ne (d : List (String × String)) (k k' v : String)
    (h : k' ≠ k) : lookupKey (setKey d k v) k' = lookupKey d k' := by
  have h' : ¬ (k = k') := fun hh => h hh.symm
  induction d with
  | nil => simp [setKey, lookupKey, h']
  | cons hd tl ih =>
    by_cases hk : hd.1 = k
    · simp [setKey, lookupKey, hk, h']
    · by_cases hk' : hd.1 = k'
      · simp [setKey, lookupKey, hk, hk', h]
      · simp [setKey, lookupKey, hk, hk', ih]

theorem lookupKey_removeKey_self (d : List (String × String)) (k : String) :
    lookupKey (removeKey d k) k = none := by
  induction d with
  | nil => simp [removeKey, lookupKey]
  | cons hd tl ih =>
    by_cases h : hd.1 = k
    · simp [removeKey, lookupKey, h, ih]
    · simp [removeKey, lookupKey, h, ih]

theorem lookupKey_removeKey_ne (d : List (String × String)) (k k' : String)
    (h : k' ≠ k) : lookupKey (removeKey d k) k' = lookupKey d k' := by
  induction d with
  | nil => simp [removeKey, lookupKey]
  | cons hd tl ih =>
    by_cases hk : hd.1 = k
    · simp [removeKey, lookupKey, hk, Ne.symm h, ih]
    · by_cases hk' : hd.1 = k'
      · simp [removeKey, lookupKey, hk, hk', h]
      · simp [removeKey, lookupKey, hk, hk', ih]

/-! ## Status vocabulary

The `ops.model` status values used by the charms, each carrying its
message. -/

inductive Status where
  | active (msg : String)
  | blocked (msg : String)
  | waiting (msg : String)
  | maintenance (msg : String)
  deriving Repr, DecidableEq

/-! ## Python string helpers -/

/-- Python `s.split(",", 1)[0]`: the prefix of `s` up to (not including) the
first comma, the whole string when there is no comma. -/
def pyFirstField (s : String) : String :=
  String.mk (s.toList.takeWhile (fun c => !(c == ',')))

/-- Python `str(x)` for an optional string: `None` prints as `"None"`. -/
def pyStr : Option String → String
  | none => "None"
  | some s => s

/-- Python `s.startswith(pre)`, modelled on the character list. -/
def pyStartswith (s pre : String) : Bool :=
  List.isPrefixOf pre.toList s.toList

theorem takeWhile_append_stop (h1 h2 : List Char)
    (hh : ',' ∉ h1) :
    (h1 ++ ',' :: h2).takeWhile (fun c => !(c == ',')) = h1 := by
  induction h1 with
  | nil => simp [List.takeWhile_cons]
  | cons c tl ih =>
    have hc : c ≠ ',' := fun h => hh (h ▸ List.mem_cons_self c tl)
    have htl : ',' ∉ tl := fun h => hh (List.mem_cons_of_mem c h)
    simp [List.takeWhile_cons, hc, ih htl]

theorem pyFirstField_append (h1 h2 : String) (hh : ',' ∉ h1.toList) :
    pyFirstField (h1 ++ "," ++ h2) = h1 := by
  unfold pyFirstField
  have hd : (h1 ++ "," ++ h2).toList = h1.toList ++ ',' :: h2.toList := by
    simp [String.toList, String.data_append]
  rw [hd, takeWhile_append_stop h1.toList h2.toList hh]
  rfl

/-! ## ensureFQDN (src/charms/jimm/src/charm.py lines 452-456)

    def ensureFQDN(dns: str):
        if not dns.startswith("http"):
            dns = "https://" + dns
        return dns
-/

def ensureFQDN (dns : String) : String :=
  if pyStartswith dns "http" then dns else "https://" ++ dns

theorem pyStartswith_https_append (s : String) :
    pyStartswith ("https://" ++ s) "http" = true := by
  unfold pyStartswith
  have hd : ("https://" ++ s).toList = "https://".toList ++ s.toList := by
    simp [String.toList, String.data_append]
  rw [hd]
  show List.isPrefixOf ['h', 't', 't', 'p']
    (['h', 't', 't', 'p', 's', ':', '/', '/'] ++ s.toList) = true
  simp [List.isPrefixOf]

/-! ## The systemd-hook reconciler
(src/charm/hooks/jaascharm.py, `update_config` lines 144-196 and
`update_config_and_restart` lines 199-218)

The configuration file on disk is `Option (List (String × String))`
(`none` = file absent).  A configuration update is a list of
`(key, Option value)` pairs, `none` meaning "remove this key", mirroring
the Python dict argument.  The process actions the reconciler can issue
are recorded explicitly. -/

inductive SvcAction where
  | none
  | start
  | restart
  deriving Repr, DecidableEq

/-- The `for k in config:` loop of `update_config`: apply each update to the
data read from the file, tracking whether anything changed. -/
def applyConfig : List (String × String) → List (String × Option String) →
    List (String × String) × Bool
  | d, [] => (d, false)
  | d, (k, Option.none) :: rest =>
    if (lookupKey d k).isSome then ((applyConfig (removeKey d k) rest).1, true)
    else applyConfig d rest
  | d, (k, Option.some v) :: rest =>
    if lookupKey d k = some v then applyConfig d rest
    else ((applyConfig (setKey d k v) rest).1, true)

/-- `update_config`: when the file is absent, `changed` starts out `True`
and the data starts empty; the file is (re)written only when changed.
Returns the resulting file content and the `changed` report. -/
def update_config (file : Option (List (String × String)))
    (cfg : List (String × Option String)) :
    Option (List (String × String)) × Bool :=
  match file with
  | none => (some (applyConfig [] cfg).1, true)
  | some d =>
    let r := applyConfig d cfg
    (some (if r.2 then r.1 else d), r.2)

/-- Supervisor-visible state of the systemd service plus its config file. -/
structure SvcState where
  configFile : Option (List (String × String))
  enabled : Bool
  running : Bool
  deriving Repr, DecidableEq

/-- `update_config_and_restart`: update the config file, then restart only
if the service is running and the config changed; start it if it is not
running; do nothing further if it is running and unchanged. -/
def update_config_and_restart (st : SvcState)
    (cfg : List (String × Option String)) : SvcState × SvcAction :=
  let r := update_config st.configFile cfg
  let st' : SvcState := { st with configFile := r.1 }
  if ¬ st.enabled then (st', SvcAction.none)
  else if st.running then
    if ¬ r.2 then (st', SvcAction.none)
    else (st', SvcAction.restart)
  else ({ st' with running := true }, SvcAction.start)

/-! Key lemmas: applying the same configuration a second time reports no
change. -/

theorem lookupKey_applyConfig_not_mem (d : List (String × String))
    (cfg : List (String × Option String)) (k : String)
    (hk : k ∉ cfg.map Prod.fst) :
    lookupKey (applyConfig d cfg).1 k = lookupKey d k := by
  induction cfg generalizing d with
  | nil => rfl
  | cons hd rest ih =>
    have hk1 : k ≠ hd.1 := by
      intro h; exact hk (by simp [h])
    have hkrest : k ∉ rest.map Prod.fst := by
      intro h; exact hk (by simp [h])
    obtain ⟨k', v'⟩ := hd
    cases v' with
    | none =>
      cases hs : (lookupKey d k').isSome with
      | true =>
        simp only [applyConfig, hs, if_true]
        rw [ih _ hkrest, lookupKey_removeKey_ne _ _ _ hk1]
      | false =>
        simp only [applyConfig, hs, Bool.false_eq_true, if_false]
        exact ih _ hkrest
    | some v =>
      by_cases hs : lookupKey d k' = some v
      · simp only [applyConfig, hs, if_pos]
        exact ih _ hkrest
      · simp only [applyConfig, hs, if_neg, not_false_iff]
        rw [ih _ hkrest, lookupKey_setKey_ne _ _ _ _ hk1]

theorem applyConfig_twice_unchanged (cfg : List (String × Option String))
    (d : List (String × String))
    (hnd : (cfg.map Prod.fst).Nodup) :
    (applyConfig (applyConfig d cfg).1 cfg).2 = false := by
  induction cfg generalizing d with
  | nil => rfl
  | cons hd rest ih =>
    obtain ⟨hhd, hrest⟩ := List.nodup_cons.mp hnd
    obtain ⟨k, v⟩ := hd
    have hknotin : k ∉ rest.map Prod.fst := by simpa using hhd
    cases v with
    | none =>
      cases hs : (lookupKey d k).isSome with
      | true =>
        simp only [applyConfig, hs, if_true]
        have hlook : lookupKey (applyConfig (removeKey d k) rest).1 k = none := by
          rw [lookupKey_applyConfig_not_mem _ _ _ hknotin,
            lookupKey_removeKey_self]
        simp only [applyConfig, hlook, Option.isSome_none, Bool.false_eq_true,
          if_false]
        exact ih _ hrest
      | false =>
        simp only [applyConfig, hs, Bool.false_eq_true, if_false]
        have hlook : lookupKey (applyConfig d rest).1 k = lookupKey d k := by
          rw [lookupKey_applyConfig_not_mem _ _ _ hknotin]
        simp only [applyConfig, hlook, hs, Bool.false_eq_true, if_false]
        exact ih _ hrest
    | some v =>
      by_cases hs : lookupKey d k = some v
      · simp only [applyConfig, hs, if_pos]
        have hlook : lookupKey (applyConfig d rest).1 k = some v := by
          rw [lookupKey_applyConfig_not_mem _ _ _ hknotin]; exact hs
        simp only [applyConfig, hlook, if_pos]
        exact ih _ hrest
      · simp only [applyConfig, hs, if_neg, not_false_iff]
        have hlook : lookupKey (applyConfig (setKey d k v) rest).1 k = some v := by
          rw [lookupKey_applyConfig_not_mem _ _ _ hknotin,
            lookupKey_setKey_self]
        simp only [applyConfig, hlook, if_pos]
        exact ih _ hrest

/-! ## The machine charm's config-changed handler
(src/charms/jimm/src/charm.py, `JimmCharm._on_config_changed` lines
137-166 and `JimmCharm._ready` lines 370-387)

`_on_config_changed` renders the charm-config arguments into the base
environment file and then restarts whenever `_ready()` holds; it never
compares the new content with what was already on disk.  `_ready` checks
only that the base, database, oauth and openfga environment files exist.
The base env file's content is modelled as the rendered argument map. -/

structure VmCharmState where
  baseEnv : Option (List (String × String))
  dbEnv : Bool
  oauthEnv : Bool
  openfgaEnv : Bool
  running : Bool
  deriving Repr, DecidableEq

def vmReady (st : VmCharmState) : Bool :=
  st.baseEnv.isSome && st.dbEnv && st.oauthEnv && st.openfgaEnv

def vmOnConfigChanged (st : VmCharmState) (args : List (String × String)) :
    VmCharmState × SvcAction :=
  let st1 : VmCharmState := { st with baseEnv := some args }
  if vmReady st1 then (st1, SvcAction.restart) else (st1, SvcAction.none)

theorem update_config_result (file : Option (List (String × String)))
    (cfg : List (String × Option String))
    (hnd : (cfg.map Prod.fst).Nodup) :
    ∃ d1, (update_config file cfg).1 = some d1 ∧
      (applyConfig d1 cfg).2 = false := by
  cases file with
  | none =>
    exact ⟨(applyConfig [] cfg).1, rfl, applyConfig_twice_unchanged cfg [] hnd⟩
  | some d =>
    cases hr : (applyConfig d cfg).2 with
    | true =>
      refine ⟨(applyConfig d cfg).1, ?_, applyConfig_twice_unchanged cfg d hnd⟩
      simp [update_config, hr]
    | false =>
      refine ⟨d, ?_, hr⟩
      simp [update_config, hr]

/-- C1 (amended): in the systemd-hook reconciler `update_config_and_restart`,
an invocation whose configuration application reports no change while the
service is running issues no process action and leaves the state unchanged;
a restart happens exactly when the update reported a change; and a second
invocation with the same configuration (keys unique, as in a Python dict)
right after a first one never issues a restart. -/
theorem update_config_and_restart_idempotent (st : SvcState)
    (cfg : List (String × Option String)) (d : List (String × String))
    (hen : st.enabled = true) (hrun : st.running = true) :
    (st.configFile = some d → (applyConfig d cfg).2 = false →
      update_config_and_restart st cfg = (st, SvcAction.none))
    ∧ ((update_config_and_restart st cfg).2 = SvcAction.restart ↔
      (update_config st.configFile cfg).2 = true)
    ∧ ((cfg.map Prod.fst).Nodup →
      (update_config_and_restart (update_config_and_restart st cfg).1 cfg).2 =
        SvcAction.none) := by
  refine ⟨?_, ?_, ?_⟩
  · intro hfile hch
    have hst : ({ configFile := some d, enabled := true, running := true } : SvcState) = st := by
      cases st
      simp_all
    simp [update_config_and_restart, update_config, hfile, hch, hen, hrun, hst]
  · cases hr : (update_config st.configFile cfg).2 with
    | true => simp [update_config_and_restart, hen, hrun, hr]
    | false => simp [update_config_and_restart, hen, hrun, hr]
  · intro hnd
    have hshape : (update_config_and_restart st cfg).1 =
        { st with configFile := (update_config st.configFile cfg).1 } := by
      cases hr : (update_config st.configFile cfg).2 <;>
        simp [update_config_and_restart, hen, hrun, hr]
    obtain ⟨d1, hd1, hch1⟩ := update_config_result st.configFile cfg hnd
    rw [hshape, hd1]
    simp [update_config_and_restart, update_config, hen, hrun, hch1]

/-- C1 witness: a concrete running, enabled service whose config file already
holds `uuid=1` receives the same configuration again; no action is issued. -/
theorem update_config_and_restart_idempotent_witness :
    update_config_and_restart
      { configFile := some [("uuid", "1")], enabled := true, running := true }
      [("uuid", Option.some "1"), ("dns-name", Option.none)] =
      ({ configFile := some [("uuid", "1")], enabled := true, running := true },
        SvcAction.none) :=
  (update_config_and_restart_idempotent
    { configFile := some [("uuid", "1")], enabled := true, running := true }
    [("uuid", Option.some "1"), ("dns-name", Option.none)]
    [("uuid", "1")] rfl rfl).1 rfl (by decide)

/-- C1 counterexample: the machine charm's `_on_config_changed`
(src/charms/jimm/src/charm.py lines 137-166) issues a restart on a
configuration identical to the one already written (base env file content
unchanged) while the service is running: the claim's "no restart on an
unchanged merged definition" does not hold for this cited handler. -/
theorem config_changed_restarts_despite_unchanged_config :
    vmOnConfigChanged
        { baseEnv := some [("uuid", "1234567890")], dbEnv := true,
          oauthEnv := true, openfgaEnv := true, running := true }
        [("uuid", "1234567890")] =
      ({ baseEnv := some [("uuid", "1234567890")], dbEnv := true,
          oauthEnv := true, openfgaEnv := true, running := true },
        SvcAction.restart) := by
  decide

/-! ## Database relation handlers

(src/charms/jimm/src/charm.py, `JimmCharm._on_database_event` lines
186-212, and src/charms/jimm-k8s/src/charm.py,
`JimmOperatorCharm._on_database_event` lines 362-376)

The event snapshot's fields `endpoints`, `username` and `password` are
`Option String` (`none` = the relation has not published the field yet). -/

def DATABASE_NAME : String := "jimm"

/-- The connection string both handlers compose:
`f"postgresql://{username}:{password}@{first endpoint}/{DATABASE_NAME}"`. -/
def dbUri (username password endpoints : String) : String :=
  "postgresql://" ++ username ++ ":" ++ password ++ "@" ++
    pyFirstField endpoints ++ "/" ++ DATABASE_NAME

/-- Outcome of the machine charm's database handler: either the event was
deferred (and nothing written), or the DSN env file was written with the
given connection string. -/
inductive DbEventResult where
  | deferred
  | wrote (dsn : String)
  deriving Repr, DecidableEq

/-- `JimmCharm._on_database_event` (machine charm): defer on empty/absent
endpoints and on absent username or password; otherwise write the DSN. -/
def onDatabaseEventVm (endpoints username password : Option String) :
    DbEventResult :=
  match endpoints with
  | none => DbEventResult.deferred
  | some eps =>
    if eps = "" then DbEventResult.deferred
    else
      match username, password with
      | some u, some p => DbEventResult.wrote (dbUri u p eps)
      | _, _ => DbEventResult.deferred

/-- `JimmOperatorCharm._on_database_event` (k8s charm): no completeness
check.  `event.endpoints.split(",", 1)` raises `AttributeError` when
`endpoints` is `None`; otherwise the connection string is composed with
Python's f-string rendering (`None` prints as `"None"`) and recorded in the
peer-relation state. -/
def onDatabaseEventK8s (endpoints username password : Option String) :
    Except String String :=
  match endpoints with
  | none => Except.error "AttributeError: NoneType has no attribute split"
  | some eps => Except.ok (dbUri (pyStr username) (pyStr password) eps)

/-- C2 (amended): the machine charm's database handler defers (and writes
no connection string) whenever the snapshot misses an expected field:
absent or empty endpoints, absent username, or absent password; it writes
only when all three are present. -/
theorem database_event_defers_on_partial_data
    (endpoints username password : Option String) :
    ((endpoints = none ∨ endpoints = some "" ∨ username = none ∨
        password = none) →
      onDatabaseEventVm endpoints username password = DbEventResult.deferred)
    ∧ (∀ dsn, onDatabaseEventVm endpoints username password =
        DbEventResult.wrote dsn →
      ∃ eps u p, endpoints = some eps ∧ eps ≠ "" ∧ username = some u ∧
        password = some p ∧ dsn = dbUri u p eps) := by
  constructor
  · rintro (h | h | h | h) <;> subst h
    · rfl
    · simp [onDatabaseEventVm]
    · cases endpoints with
      | none => rfl
      | some eps =>
        by_cases he : eps = ""
        · simp [onDatabaseEventVm, he]
        · cases password <;> simp [onDatabaseEventVm, he]
    · cases endpoints with
      | none => rfl
      | some eps =>
        by_cases he : eps = ""
        · simp [onDatabaseEventVm, he]
        · cases username <;> simp [onDatabaseEventVm, he]
  · intro dsn hw
    cases endpoints with
    | none => exact absurd hw (by simp [onDatabaseEventVm])
    | some eps =>
      by_cases he : eps = ""
      · exact absurd hw (by simp [onDatabaseEventVm, he])
      · cases username with
        | none => exact absurd hw (by simp [onDatabaseEventVm, he])
        | some u =>
          cases password with
          | none => exact absurd hw (by simp [onDatabaseEventVm, he])
          | some p =>
            simp only [onDatabaseEventVm, he, if_neg, not_false_iff] at hw
            cases hw
            exact ⟨eps, u, p, rfl, he, rfl, rfl, rfl⟩

/-- C2 witness: a snapshot with `username=None` is deferred by the machine
charm's handler, and a complete snapshot is written. -/
theorem database_event_defers_on_partial_data_witness :
    onDatabaseEventVm (some "h1,h2") none (some "p") =
      DbEventResult.deferred :=
  (database_event_defers_on_partial_data (some "h1,h2") none (some "p")).1
    (Or.inr (Or.inr (Or.inl rfl)))

/-- C2 counterexample: the k8s charm's database handler, given a snapshot
with `username=None`, neither defers nor leaves the state alone: it records
the partially-formed connection string `postgresql://None:p@h1/jimm`. -/
theorem database_event_k8s_writes_partial_dsn :
    onDatabaseEventK8s (some "h1,h2") none (some "p") =
      Except.ok "postgresql://None:p@h1/jimm" := by
  rfl

/-- The `JIMM_DSN` entry of `_update_workload`'s `config_values`
(src/charms/jimm-k8s/src/charm.py lines 266-267: added only when the state
holds a dsn) followed by the empty-value filter of line 286. -/
def configValuesDsn (stateDsn : Option String) : List (String × String) :=
  (match stateDsn with
   | some dsn => [("JIMM_DSN", dsn)]
   | none => []).filter (fun p => p.2 ≠ "")

theorem dbUri_ne_empty (u p e : String) : dbUri u p e ≠ "" := by
  intro h
  have hd : (dbUri u p e).toList = ("" : String).toList := by rw [h]
  rw [dbUri] at hd
  simp only [String.toList, String.data_append] at hd
  simp at hd

/-- C6: a database snapshot with username `u`, password `p` and endpoint
list `h1,h2` (first element comma-free) makes the k8s handler record
exactly `postgresql://u:p@h1/jimm` — only the first endpoint is used — and
the aggregated configuration then carries that string under `JIMM_DSN`. -/
theorem database_event_first_endpoint_dsn (u p h1 h2 : String)
    (hc : ',' ∉ h1.toList) :
    onDatabaseEventK8s (some (h1 ++ "," ++ h2)) (some u) (some p) =
      Except.ok ("postgresql://" ++ u ++ ":" ++ p ++ "@" ++ h1 ++ "/jimm")
    ∧ lookupKey (configValuesDsn (some (dbUri u p (h1 ++ "," ++ h2))))
        "JIMM_DSN" = some (dbUri u p (h1 ++ "," ++ h2)) := by
  constructor
  · show Except.ok (dbUri u p (h1 ++ "," ++ h2)) = _
    rw [dbUri, pyFirstField_append h1 h2 hc,
      String.append_assoc ("postgresql://" ++ u ++ ":" ++ p ++ "@" ++ h1)
        "/" DATABASE_NAME]
    rfl
  · have hne : dbUri u p (h1 ++ "," ++ h2) ≠ "" := dbUri_ne_empty u p _
    simp [configValuesDsn, lookupKey, hne]

/-- C6 witness: `username=u`, `password=p`, `endpoints="h1,h2"` yields
`JIMM_DSN=postgresql://u:p@h1/jimm` in the aggregated configuration. -/
theorem database_event_first_endpoint_dsn_witness :
    onDatabaseEventK8s (some ("h1" ++ "," ++ "h2")) (some "u") (some "p") =
      Except.ok ("postgresql://" ++ "u" ++ ":" ++ "p" ++ "@" ++ "h1" ++ "/jimm")
    ∧ lookupKey (configValuesDsn (some (dbUri "u" "p" ("h1" ++ "," ++ "h2"))))
        "JIMM_DSN" = some (dbUri "u" "p" ("h1" ++ "," ++ "h2")) :=
  database_event_first_endpoint_dsn "u" "p" "h1" "h2" (by decide)

/-! ## Readiness check
(src/charms/jimm-k8s/src/charm.py, `REQUIRED_SETTINGS` lines 65-75 and
`JimmOperatorCharm._ready` lines 389-416)

The pebble plan's `jimm` service is `Option` of its environment dict; the
live process state is the `is_running` boolean.  `_ready` returns a
boolean and sets the unit status as a side effect; the embedding returns
both. -/

def REQUIRED_SETTINGS : List (String × String) :=
  [("JIMM_UUID", "missing uuid configuration"),
   ("JIMM_DSN", "missing postgresql relation"),
   ("CANDID_URL", "missing candid-url configuration"),
   ("OPENFGA_STORE", "missing openfga relation"),
   ("OPENFGA_AUTH_MODEL", "run create-authorization-model action"),
   ("OPENFGA_HOST", "missing openfga relation"),
   ("OPENFGA_SCHEME", "missing openfga relation"),
   ("OPENFGA_TOKEN", "missing openfga relation"),
   ("OPENFGA_PORT", "missing openfga relation")]

/-- The `for setting, message in REQUIRED_SETTINGS.items()` loop: the first
required setting that is absent or empty in the environment, with its
message. -/
def firstMissing (reqs : List (String × String))
    (env : List (String × String)) : Option (String × String) :=
  match reqs with
  | [] => none
  | (k, m) :: rest =>
    if (lookupKey env k).getD "" = "" then some (k, m)
    else firstMissing rest env

/-- `_ready`: not-connected and no-service guards, then the required-key
loop, then the running/stopped verdict. -/
def readyCheck (reqs : List (String × String)) (canConnect : Bool)
    (planEnv : Option (List (String × String))) (running : Bool) :
    Bool × Status :=
  if ¬ canConnect then (false, Status.waiting "waiting for jimm workload")
  else
    match planEnv with
    | none => (false, Status.waiting "waiting for service")
    | some env =>
      match firstMissing reqs env with
      | some (k, m) =>
        (false, Status.blocked (k ++ " configuration value not set: " ++ m))
      | none =>
        (true, if running then Status.active "running"
          else Status.waiting "stopped")

theorem firstMissing_of_unique_missing (reqs env : List (String × String))
    (k m : String) (hnd : (reqs.map Prod.fst).Nodup)
    (hmem : (k, m) ∈ reqs) (hkmiss : (lookupKey env k).getD "" = "")
    (hother : ∀ p ∈ reqs, p.1 ≠ k → (lookupKey env p.1).getD "" ≠ "") :
    firstMissing reqs env = some (k, m) := by
  induction reqs with
  | nil => cases hmem
  | cons hd rest ih =>
    obtain ⟨hhd, hrest⟩ := List.nodup_cons.mp hnd
    obtain ⟨k', m'⟩ := hd
    by_cases hk : k' = k
    · subst hk
      have hm : m' = m := by
        rcases List.mem_cons.mp hmem with h | h
        · exact (Prod.mk.injEq _ _ _ _ ▸ h).2.symm
        · exact absurd (List.mem_map_of_mem Prod.fst h) (by simpa using hhd)
      subst hm
      simp [firstMissing, hkmiss]
    · have hne : (lookupKey env k').getD "" ≠ "" :=
        hother (k', m') (List.mem_cons_self _ _) hk
      have hmem' : (k, m) ∈ rest := by
        rcases List.mem_cons.mp hmem with h | h
        · exact absurd (congrArg Prod.fst h).symm hk
        · exact h
      simp only [firstMissing, hne, if_neg, not_false_iff]
      exact ih hrest hmem'
        (fun p hp hpk => hother p (List.mem_cons_of_mem _ hp) hpk)

theorem firstMissing_of_complete (reqs env : List (String × String))
    (hall : ∀ p ∈ reqs, (lookupKey env p.1).getD "" ≠ "") :
    firstMissing reqs env = none := by
  induction reqs with
  | nil => rfl
  | cons hd rest ih =>
    have hne := hall hd (List.mem_cons_self _ _)
    simp only [firstMissing, hne, if_neg, not_false_iff]
    exact ih (fun p hp => hall p (List.mem_cons_of_mem _ hp))

/-- C3: with the container connectable and the service present in the plan,
a configuration complete except for a single required key `k` yields a
blocked verdict whose message names exactly `k` (with `k`'s own message);
a configuration in which all required keys are present and non-empty
yields `active("running")` when the process runs, else
`waiting("stopped")`. -/
theorem ready_blocked_names_missing_key (reqs env : List (String × String))
    (running : Bool) (k m : String)
    (hnd : (reqs.map Prod.fst).Nodup) :
    ((k, m) ∈ reqs → (lookupKey env k).getD "" = "" →
      (∀ p ∈ reqs, p.1 ≠ k → (lookupKey env p.1).getD "" ≠ "") →
      readyCheck reqs true (some env) running =
        (false, Status.blocked (k ++ " configuration value not set: " ++ m)))
    ∧ ((∀ p ∈ reqs, (lookupKey env p.1).getD "" ≠ "") →
      readyCheck reqs true (some env) running =
        (true, if running then Status.active "running"
          else Status.waiting "stopped")) := by
  constructor
  · intro hmem hkmiss hother
    have hfm := firstMissing_of_unique_missing reqs env k m hnd hmem hkmiss hother
    simp [readyCheck, hfm]
  · intro hall
    have hfm := firstMissing_of_complete reqs env hall
    simp [readyCheck, hfm]

/-- C3 witness: with the actual `REQUIRED_SETTINGS` list, an environment
complete except for `JIMM_DSN` is blocked with the message naming
`JIMM_DSN`; the complete environment with a running process is active. -/
theorem ready_blocked_names_missing_key_witness :
    readyCheck REQUIRED_SETTINGS true
        (some [("JIMM_UUID", "1234567890"), ("CANDID_URL", "test-candid-url"),
          ("OPENFGA_STORE", "s"), ("OPENFGA_AUTH_MODEL", "a"),
          ("OPENFGA_HOST", "h"), ("OPENFGA_SCHEME", "http"),
          ("OPENFGA_TOKEN", "t"), ("OPENFGA_PORT", "8080")]) true =
      (false, Status.blocked
        "JIMM_DSN configuration value not set: missing postgresql relation")
    ∧ readyCheck REQUIRED_SETTINGS true
        (some [("JIMM_UUID", "1234567890"), ("CANDID_URL", "test-candid-url"),
          ("OPENFGA_STORE", "s"), ("OPENFGA_AUTH_MODEL", "a"),
          ("OPENFGA_HOST", "h"), ("OPENFGA_SCHEME", "http"),
          ("OPENFGA_TOKEN", "t"), ("OPENFGA_PORT", "8080"),
          ("JIMM_DSN", "postgresql://u:p@h1/jimm")]) true =
      (true, Status.active "running") := by
  constructor
  · exact (ready_blocked_names_missing_key REQUIRED_SETTINGS
      [("JIMM_UUID", "1234567890"), ("CANDID_URL", "test-candid-url"),
        ("OPENFGA_STORE", "s"), ("OPENFGA_AUTH_MODEL", "a"),
        ("OPENFGA_HOST", "h"), ("OPENFGA_SCHEME", "http"),
        ("OPENFGA_TOKEN", "t"), ("OPENFGA_PORT", "8080")] true
      "JIMM_DSN" "missing postgresql relation" (by decide)).1
      (by decide) (by decide) (by decide)
  · exact (ready_blocked_names_missing_key REQUIRED_SETTINGS
      [("JIMM_UUID", "1234567890"), ("CANDID_URL", "test-candid-url"),
        ("OPENFGA_STORE", "s"), ("OPENFGA_AUTH_MODEL", "a"),
        ("OPENFGA_HOST", "h"), ("OPENFGA_SCHEME", "http"),
        ("OPENFGA_TOKEN", "t"), ("OPENFGA_PORT", "8080"),
        ("JIMM_DSN", "postgresql://u:p@h1/jimm")] true
      "JIMM_DSN" "missing postgresql relation" (by decide)).2
      (by decide)

/-! ## Asset installer: hash-gated dashboard install
(src/charms/jimm-k8s/src/charm.py, `JimmOperatorCharm._install_dashboard`
lines 418-495, and src/jimm-operator/src/charm.py lines 302-366)

The archive is its byte content (`List Nat`); the whole-file md5 is an
arbitrary hash function passed as a parameter (`_hash`, chunked read).
Tar extraction is modelled as the identity on the archive's byte content:
the installed copy is determined by the archive bytes.  The container
state records the installed copy and the recorded-hash file.  The boolean
result reports whether an extraction/installation was performed. -/

def extractArchive (a : List Nat) : List Nat := a

structure DashState where
  installed : Option (List Nat)
  hashFile : Option String
  deriving Repr, DecidableEq

/-- `_install_dashboard`: no resource or an empty resource installs
nothing; otherwise the archive hash is compared with the recorded hash and
the install is skipped on a match; on a mismatch (or no recorded hash) the
old copy is removed, the archive extracted, and the new hash recorded. -/
def installDashboard (h : List Nat → String) (st : DashState)
    (resource : Option (List Nat)) : DashState × Bool :=
  match resource with
  | none => (st, false)
  | some arch =>
    if arch.length = 0 then (st, false)
    else
      let dashboardHash := h arch
      let changed : Bool :=
        match st.hashFile with
        | some existing => !(dashboardHash == existing)
        | none => true
      if changed then
        ({ installed := some (extractArchive arch),
           hashFile := some dashboardHash }, true)
      else (st, false)

/-- C4: re-installing a byte-identical archive right after an install of it
performs no extraction and leaves the installed copy and recorded hash
unchanged; installing an archive whose hash differs from the recorded one
updates both the installed content and the recorded hash. -/
theorem install_dashboard_hash_stable (h : List Nat → String)
    (st : DashState) (a b : List Nat) (ha : a ≠ []) :
    (installDashboard h (installDashboard h st (some a)).1 (some a) =
      ((installDashboard h st (some a)).1, false))
    ∧ (b ≠ [] → (∀ hs, st.hashFile = some hs → h b ≠ hs) →
      installDashboard h st (some b) =
        ({ installed := some (extractArchive b), hashFile := some (h b) },
          true)) := by
  constructor
  · have hlen : ¬ a.length = 0 := by simpa using ha
    have h1 : (installDashboard h st (some a)).1.hashFile = some (h a) ∨
        (installDashboard h st (some a)).1 = st ∧ st.hashFile = some (h a) := by
      cases hf : st.hashFile with
      | none => simp [installDashboard, hlen, hf]
      | some existing =>
        by_cases he : h a = existing
        · right
          subst he
          simp [installDashboard, hlen, hf]
        · left
          simp [installDashboard, hlen, hf, he]
    rcases h1 with h1 | ⟨h1, h2⟩
    · generalize hgen : (installDashboard h st (some a)).1 = s1 at h1 ⊢
      simp [installDashboard, hlen, h1]
    · rw [h1]
      simp [installDashboard, hlen, h2]
  · intro hb hne
    have hlenb : ¬ b.length = 0 := by simpa using hb
    cases hf : st.hashFile with
    | none => simp [installDashboard, hlenb, hf]
    | some hs =>
      have := hne hs hf
      simp [installDashboard, hlenb, hf, this]

/-- C4 witness: installing `[1,2,3]` twice extracts once and is then
stable; installing the modified `[1,2,3,4]` afterwards updates copy and
hash (hash function: decimal rendering of the byte list). -/
theorem install_dashboard_hash_stable_witness :
    (installDashboard (fun l => toString l)
        (installDashboard (fun l => toString l)
          { installed := none, hashFile := none } (some [1, 2, 3])).1
        (some [1, 2, 3]) =
      ((installDashboard (fun l => toString l)
          { installed := none, hashFile := none } (some [1, 2, 3])).1, false))
    ∧ installDashboard (fun l => toString l)
        { installed := some [1, 2, 3], hashFile := some (toString [1, 2, 3]) }
        (some [1, 2, 3, 4]) =
      ({ installed := some [1, 2, 3, 4],
         hashFile := some (toString [1, 2, 3, 4]) }, true) := by
  constructor
  · exact (install_dashboard_hash_stable (fun l => toString l)
      { installed := none, hashFile := none } [1, 2, 3] [1, 2, 3]
      (by decide)).1
  · exact (install_dashboard_hash_stable (fun l => toString l)
      { installed := some [1, 2, 3], hashFile := some (toString [1, 2, 3]) }
      [1, 2, 3] [1, 2, 3, 4] (by decide)).2 (by decide)
      (fun hs hhs => by
        simp only [Option.some.injEq] at hhs
        subst hhs
        decide)

/-- C7: a zero-byte source archive installs nothing: the state is returned
unchanged with an `unchanged` report, and the (total) function raises no
error.  Likewise when no resource is attached. -/
theorem install_dashboard_empty_archive_noop (h : List Nat → String)
    (st : DashState) :
    installDashboard h st (some []) = (st, false)
    ∧ installDashboard h st none = (st, false) := by
  exact ⟨rfl, rfl⟩

/-! ## Asset install swap trace
(src/charm/hooks/jaascharm.py, `install` lines 109-124: the dashboard
old/new/swap block)

Each primitive file operation is one observable step on the filesystem
state; `dashTraceAt st0 c i` is the state after the first `i` steps of
installing a dashboard archive with extracted content `c`.  The steps, in
source order, are:
1. `shutil.rmtree(new_dashboard_path)`,
2. `shutil.rmtree(old_dashboard_path)`,
3. `tarfile.extractall(new_dashboard_path)` (staging),
4. `os.rename(dashboard_path, old_dashboard_path)` (when the current copy
   exists),
5. `os.rename(new_dashboard_path, dashboard_path)`. -/

structure FsState where
  current : Option Nat
  newDir : Option Nat
  oldDir : Option Nat
  deriving Repr, DecidableEq

def dashInstallSteps (c : Nat) : List (FsState → FsState) :=
  [fun st => { st with newDir := none },
   fun st => { st with oldDir := none },
   fun st => { st with newDir := some c },
   fun st => if st.current.isSome then
       { st with oldDir := st.current, current := none }
     else st,
   fun st => { st with current := st.newDir, newDir := none }]

def dashTraceAt (st0 : FsState) (c : Nat) (i : Nat) : FsState :=
  ((dashInstallSteps c).take i).foldl (fun s f => f s) st0

/-- C5 counterexample: starting from a state whose target path holds a
previously installed copy, the observable point after step 4 (current
renamed to old, new not yet promoted) has the target path absent — the
claim's "at no observable point is the installed target path absent" is
false for an installation interrupted between the two renames. -/
theorem dashboard_swap_window_target_absent :
    (dashTraceAt { current := some 1, newDir := none, oldDir := none } 2
        0).current = some 1
    ∧ (dashTraceAt { current := some 1, newDir := none, oldDir := none } 2
        4).current = none := by
  decide

/-- C5 (amended): the target is only modified after staging has fully
succeeded — before step 4 it still holds the previous copy, and staging is
complete (new content in the staging directory) by step 3; the target path
is, however, absent at the single observable point between the two
renames, where the previous copy survives at the `.old` path; the
completed installation leaves the new content at the target. -/
theorem dashboard_swap_staging_before_replace (st0 : FsState) (c prev : Nat)
    (hprev : st0.current = some prev) :
    (∀ i, i < 4 → (dashTraceAt st0 c i).current = some prev)
    ∧ (dashTraceAt st0 c 3).newDir = some c
    ∧ (dashTraceAt st0 c 4).current = none
    ∧ (dashTraceAt st0 c 4).oldDir = some prev
    ∧ (dashTraceAt st0 c 5).current = some c := by
  obtain ⟨cur, nw, old⟩ := st0
  simp only [FsState.current] at hprev
  subst hprev
  refine ⟨?_, rfl, rfl, rfl, rfl⟩
  intro i hi
  interval_cases i <;> rfl

/-- C5 witness: the amended statement evaluated on a concrete previously
installed copy. -/
theorem dashboard_swap_staging_before_replace_witness :
    (∀ i, i < 4 →
      (dashTraceAt { current := some 7, newDir := none, oldDir := none } 2
        i).current = some 7)
    ∧ (dashTraceAt { current := some 7, newDir := none, oldDir := none } 2
        3).newDir = some 2
    ∧ (dashTraceAt { current := some 7, newDir := none, oldDir := none } 2
        4).current = none
    ∧ (dashTraceAt { current := some 7, newDir := none, oldDir := none } 2
        4).oldDir = some 7
    ∧ (dashTraceAt { current := some 7, newDir := none, oldDir := none } 2
        5).current = some 2 :=
  dashboard_swap_staging_before_replace
    { current := some 7, newDir := none, oldDir := none } 2 7 rfl

/-! ## Status reporter version probe
(src/charms/jimm/src/charm.py, `JimmCharm._on_update_status` lines
256-271, and src/charm/src/charm.py lines 117-139)

The combined `urllib.request.urlopen("http://localhost:8080/debug/info")`
plus `json.loads` call is a `ProbeResult`: `ok` with the parsed JSON
object (its string fields), or `err` with the exception text (endpoint
unreachable, non-200 response, body that fails to parse).  The handler's
`try/except Exception` boundary is the match on this result; the
embedding being a total function is the "never propagates an exception"
property. -/

inductive ProbeResult where
  | ok (body : List (String × String))
  | err (msg : String)
  deriving Repr, DecidableEq

/-- `_on_update_status`: return early keeping `_ready`'s status when not
ready; on a successful probe set active and record `data.get("Version",
"")` when non-empty; on any probe failure set the transient
`maintenance("starting")` status. -/
def onUpdateStatus (ready : Bool) (readyStatus : Status)
    (prevVersion : Option String) (probe : ProbeResult) :
    Status × Option String :=
  if ¬ ready then (readyStatus, prevVersion)
  else
    match probe with
    | ProbeResult.err _ => (Status.maintenance "starting", prevVersion)
    | ProbeResult.ok data =>
      let v := (lookupKey data "Version").getD ""
      (Status.active "", if v = "" then prevVersion else some v)

/-- C8: the version probe is total (no exception crosses the Status
Reporter boundary); a 200 response whose JSON carries a non-empty
`Version` yields the active status with that version recorded; every
failure to reach or parse the endpoint yields the transient
`maintenance("starting")` status, not an error. -/
theorem update_status_probe_never_raises (readyStatus : Status)
    (prevVersion : Option String) (probe : ProbeResult) :
    (∀ data v, probe = ProbeResult.ok data →
      lookupKey data "Version" = some v → v ≠ "" →
      onUpdateStatus true readyStatus prevVersion probe =
        (Status.active "", some v))
    ∧ (∀ e, probe = ProbeResult.err e →
      onUpdateStatus true readyStatus prevVersion probe =
        (Status.maintenance "starting", prevVersion)) := by
  constructor
  · intro data v hp hv hne
    subst hp
    simp [onUpdateStatus, hv, hne]
  · intro e hp
    subst hp
    rfl

/-- C8 witness: `{"Version":"1.2.3"}` with HTTP 200 gives
`active` and records version `1.2.3`; an unreachable endpoint gives
`maintenance("starting")`. -/
theorem update_status_probe_never_raises_witness :
    onUpdateStatus true (Status.waiting "stopped") none
        (ProbeResult.ok [("Version", "1.2.3")]) =
      (Status.active "", some "1.2.3")
    ∧ onUpdateStatus true (Status.waiting "stopped") none
        (ProbeResult.err "connection refused") =
      (Status.maintenance "starting", none) :=
  ⟨(update_status_probe_never_raises (Status.waiting "stopped") none
      (ProbeResult.ok [("Version", "1.2.3")])).1
      [("Version", "1.2.3")] "1.2.3" rfl (by decide) (by decide),
   (update_status_probe_never_raises (Status.waiting "stopped") none
      (ProbeResult.err "connection refused")).2 "connection refused" rfl⟩

/-! ## Peer-relation state
(src/charms/jimm-k8s/src/state.py, `PeerRelationState` lines 19-68)

The peer relation's application databag is `Option` of an association
list (`none` = the relation does not exist yet).  `set`/`unset` raise
`RelationNotReadyError` as `Except.error`; `pop` on a missing key raises
`KeyError`. -/

inductive StateError where
  | relationNotReady
  | keyError (k : String)
  deriving Repr, DecidableEq

structure PeerState where
  relation : Option (List (String × String))
  deriving Repr, DecidableEq

/-- `PeerRelationState.get`: empty string when the relation is absent,
else `relation.data[app].get(key, "")`. -/
def stateGet (st : PeerState) (k : String) : String :=
  match st.relation with
  | none => ""
  | some d => (lookupKey d k).getD ""

/-- `PeerRelationState.set`: `RelationNotReadyError` when the relation is
absent, else update the databag. -/
def stateSet (st : PeerState) (k v : String) : Except StateError PeerState :=
  match st.relation with
  | none => Except.error StateError.relationNotReady
  | some d => Except.ok { relation := some (setKey d k v) }

/-- `dict.pop(key)` with no default: `KeyError` when absent. -/
def statePop (d : List (String × String)) (k : String) :
    Except StateError (List (String × String)) :=
  if (lookupKey d k).isSome then Except.ok (removeKey d k)
  else Except.error (StateError.keyError k)

/-- `PeerRelationState.unset`: `RelationNotReadyError` when the relation
is absent, else pop each key in turn. -/
def stateUnset (st : PeerState) (keys : List String) :
    Except StateError PeerState :=
  match st.relation with
  | none => Except.error StateError.relationNotReady
  | some d =>
    (keys.foldlM (fun acc k => statePop acc k) d).map
      (fun dd => { relation := some dd })

/-- C9: reads and writes are asymmetric under a missing peer relation:
`get` returns the empty string for every key (and, being total, never
raises), while `set` and `unset` raise `RelationNotReadyError` — an error
result carries no new state, so no relation data is changed. -/
theorem peer_state_asymmetric_without_relation (k v : String)
    (keys : List String) :
    stateGet { relation := none } k = ""
    ∧ stateSet { relation := none } k v =
      Except.error StateError.relationNotReady
    ∧ stateUnset { relation := none } keys =
      Except.error StateError.relationNotReady :=
  ⟨rfl, rfl, rfl⟩

/-- C10: `ensureFQDN` establishes the `http` prefix — strings not starting
with `http` get `https://` prepended and all others are returned unchanged
— and it is idempotent. -/
theorem ensureFQDN_idempotent (s : String) :
    pyStartswith (ensureFQDN s) "http" = true
    ∧ ensureFQDN (ensureFQDN s) = ensureFQDN s
    ∧ (pyStartswith s "http" = false → ensureFQDN s = "https://" ++ s)
    ∧ (pyStartswith s "http" = true → ensureFQDN s = s) := by
  have hp : pyStartswith (ensureFQDN s) "http" = true := by
    cases h : pyStartswith s "http" with
    | true => simp [ensureFQDN, h]
    | false =>
      simp only [ensureFQDN, h, Bool.false_eq_true, if_false]
      exact pyStartswith_https_append s
  refine ⟨hp, ?_, ?_, ?_⟩
  · have hq : ensureFQDN (ensureFQDN s) =
        if pyStartswith (ensureFQDN s) "http" then ensureFQDN s
        else "https://" ++ ensureFQDN s := rfl
    rw [hq, hp]
    simp
  · intro h
    simp [ensureFQDN, h]
  · intro h
    simp [ensureFQDN, h]

/-- C10 witness: `example.com` gains the prefix, after which a second
application changes nothing. -/
theorem ensureFQDN_idempotent_witness :
    pyStartswith (ensureFQDN "example.com") "http" = true
    ∧ ensureFQDN (ensureFQDN "example.com") = ensureFQDN "example.com"
    ∧ ensureFQDN "example.com" = "https://" ++ "example.com" := by
  obtain ⟨h1, h2, h3, _⟩ := ensureFQDN_idempotent "example.com"
  exact ⟨h1, h2, h3 (by decide)⟩

end Jimm
